import Mathlib

/-!
Verification of the code-redemption service (Vercel + Neon Postgres).

The development shallowly embeds the service's data model and handlers:
the `codes` inventory table, the `used_code` ledger table, the atomic
`REDEEM_SQL` statement of the idempotent redeem endpoint, the legacy
non-idempotent redeem variant, the peek / stats / status read endpoints,
the request-body parser and the error-classification helpers.  Each
definition is translated from the corresponding TypeScript/SQL source.
-/

namespace Redemption

/-- String constant: the cashback category name. -/
def catCashbackStr : String := "gopay_cashback"

/-- String constant: the coins category name. -/
def catCoinsStr : String := "gopay_coins"

/-- The closed `code_category` enumeration (`ALLOWED_CATEGORIES`). -/
inductive Category
  | gopay_cashback
  | gopay_coins
deriving DecidableEq

/-- `category::text`: the Postgres text rendering of a category value. -/
def categoryText : Category → String
  | .gopay_cashback => catCashbackStr
  | .gopay_coins => catCoinsStr

/-- Membership test of `ALLOWED_CATEGORIES` on a raw string, returning the
decoded category. -/
def allowedCategory (s : String) : Option Category :=
  if s = catCashbackStr then some Category.gopay_cashback
  else if s = catCoinsStr then some Category.gopay_coins
  else none

/-- A row of the `codes` table: `id` (primary key), `category`, the opaque
`code` string (called `value` here to avoid clashing with the table name),
and the nullable `used_at` timestamp.  Timestamps are modelled as naturals. -/
structure Code where
  id : Nat
  category : Category
  value : String
  usedAt : Option Nat
deriving DecidableEq

/-- A row of the `used_code` ledger table: `code_id`, nullable
`player_user_id`, nullable denormalized `category` and nullable
`roblox_job_id`.  (The legacy insert omits the category column.) -/
structure UsedRecord where
  codeId : Nat
  playerUserId : Option ℚ
  category : Option Category
  robloxJobId : Option String
deriving DecidableEq

/-- The durable store: the `codes` inventory and the `used_code` ledger,
each modelled as a list of rows in physical order (ledger rows are appended
in insertion order, matching their serially assigned ids). -/
structure Store where
  codes : List Code
  usedCodes : List UsedRecord
deriving DecidableEq

/-- `codes.id` is the primary key: two rows of the inventory that share an
id are the same row. -/
def idUnique (s : Store) : Prop :=
  ∀ c ∈ s.codes, ∀ c' ∈ s.codes, c.id = c'.id → c = c'

instance (s : Store) : Decidable (idUnique s) := by
  unfold idUnique; infer_instance

/-- The `WHERE category = $2 AND used_at IS NULL` row filter of the
`picked` CTE and of `PEEK_SQL`. -/
def isAvailable (cat : Category) (c : Code) : Bool :=
  c.category == cat && c.usedAt == none

/-- The available rows of a category, in physical order. -/
def availables (s : Store) (cat : Category) : List Code :=
  s.codes.filter (isAvailable cat)

/-- `ORDER BY id LIMIT 1`: the row with the smallest id of a row list
(ties, impossible under the primary key, keep the earlier row). -/
def minIdCode : List Code → Option Code
  | [] => none
  | c :: cs =>
    match minIdCode cs with
    | none => some c
    | some d => some (if d.id < c.id then d else c)

/-- The `picked` CTE's selection (and `PEEK_SQL`'s): the available code of
the category with the smallest id. -/
def pickCode (s : Store) (cat : Category) : Option Code :=
  minIdCode (availables s cat)

/-- The `existing` CTE of `REDEEM_SQL`:
`SELECT c.code FROM used_code u JOIN codes c ON c.id = u.code_id
WHERE u.player_user_id = $1 AND c.category = $2 LIMIT 1`. -/
def findExisting (s : Store) (p : ℚ) (cat : Category) : Option String :=
  (s.usedCodes.filterMap (fun u =>
    if u.playerUserId == some p then
      (s.codes.find? (fun c => c.id == u.codeId && c.category == cat)).map
        (fun c => c.value)
    else none)).head?

/-- The `updated` CTE: `UPDATE codes SET used_at = now() WHERE id = picked.id`. -/
def markUsed (now : Nat) (pickedId : Nat) (codes : List Code) : List Code :=
  codes.map (fun c => if c.id == pickedId then { c with usedAt := some now } else c)

/-- The whole `REDEEM_SQL` statement of the idempotent redeem endpoint,
as one atomic state transformation.  The returned pair is the single
result row `(already_code, new_code)`; the returned store is the store
after the `updated` and `logged` CTEs. -/
def redeemCore (now : Nat) (s : Store) (p : ℚ) (cat : Category)
    (jobId : Option String) : (Option String × Option String) × Store :=
  match findExisting s p cat with
  | some v => ((some v, none), s)
  | none =>
    match pickCode s cat with
    | none => ((none, none), s)
    | some c =>
      ((none, some c.value),
       { codes := markUsed now c.id s.codes,
         usedCodes := s.usedCodes ++ [⟨c.id, some p, some cat, jobId⟩] })

/-- The legacy (non-idempotent) redeem statement of `api/redeem.ts`:
FIFO pop with no idempotency lookup; its ledger insert carries no
category column and a possibly null player id. -/
def redeemLegacy (now : Nat) (s : Store) (cat : Category) (p : Option ℚ)
    (jobId : Option String) : Option String × Store :=
  match pickCode s cat with
  | none => (none, s)
  | some c =>
    (some c.value,
     { codes := markUsed now c.id s.codes,
       usedCodes := s.usedCodes ++ [⟨c.id, p, none, jobId⟩] })

/-- The coordinator's logical outcome, read off the `REDEEM_SQL` result row:
`already_code` is non-null exactly when the `existing` CTE found a ledger
entry, `new_code` exactly when a fresh code was allocated. -/
inductive RedeemResult
  | alreadyRedeemed (code : String)
  | allocated (code : String)
  | outOfStock
deriving DecidableEq

/-- Decode the `(already_code, new_code)` result row into the coordinator
outcome. -/
def rowResult : Option String × Option String → RedeemResult
  | (some v, _) => .alreadyRedeemed v
  | (none, some v) => .allocated v
  | (none, none) => .outOfStock

/-- JavaScript truthiness of a `string | null` value: truthy iff non-null
and nonempty. -/
def truthy : Option String → Bool
  | none => false
  | some s => s ≠ ""

/-- The JSON responses the handlers can produce (body shape; the paired
HTTP status is `Resp.status`). -/
inductive Resp
  | methodNotAllowed
  | unauthorized
  | invalidJson
  | invalidBody
  | alreadyRedeemed
  | outOfStock
  | allocated (code : String)
  | invalidCategory
  | invalidCode
  | peekOk (id : Nat) (code : String) (category : String)
  | statsOk (rows : List (String × Nat × Nat))
  | notFound
  | statusFound (codeRow : Code) (used : Bool) (record : Option UsedRecord)
  | dbTimeout
  | dbUnavailable
  | internalError
deriving DecidableEq

/-- The HTTP status code sent with each response body. -/
def Resp.status : Resp → Nat
  | .methodNotAllowed => 405
  | .unauthorized => 401
  | .invalidJson => 400
  | .invalidBody => 400
  | .alreadyRedeemed => 409
  | .outOfStock => 404
  | .allocated _ => 200
  | .invalidCategory => 400
  | .invalidCode => 400
  | .peekOk _ _ _ => 200
  | .statsOk _ => 200
  | .notFound => 404
  | .statusFound _ _ _ => 200
  | .dbTimeout => 504
  | .dbUnavailable => 503
  | .internalError => 500

/-- The redeem handler's mapping of the result row to a response:
`if (alreadyCode) 409; if (!newCode) 404; 200 {code}` — both guards are
JavaScript truthiness tests on `string | null`. -/
def classifyRow : Option String × Option String → Resp
  | (a, n) =>
    if truthy a then .alreadyRedeemed
    else if truthy n then
      match n with
      | some v => .allocated v
      | none => .outOfStock
    else .outOfStock

/-- A JavaScript number as seen by `typeof x === "number"`:
finite values, NaN, or the two infinities. -/
inductive JSNum
  | finite (q : ℚ)
  | nan
  | posInf
  | negInf
deriving DecidableEq

/-- `Number.isFinite`. -/
def isFiniteNum : JSNum → Bool
  | .finite _ => true
  | _ => false

/-- A scalar JSON field value (nested objects/arrays only matter through
their `typeof`, collapsed into `object`). -/
inductive JSAtom
  | null
  | bool (b : Bool)
  | num (n : JSNum)
  | str (s : String)
  | object
deriving DecidableEq

/-- A parsed JSON request body: either not a non-null object, or an object
with named fields. -/
inductive JsonBody
  | nonObject (a : JSAtom)
  | object (fields : List (String × JSAtom))
deriving DecidableEq

/-- Property lookup on a JS object (absent field reads as `undefined`,
modelled as `none`). -/
def lookupField (fields : List (String × JSAtom)) (k : String) : Option JSAtom :=
  (fields.find? (fun kv => kv.1 == k)).map (fun kv => kv.2)

/-- Field name constant. -/
def fieldCategory : String := "category"

/-- Field name constant. -/
def fieldPlayerUserId : String := "playerUserId"

/-- Field name constant. -/
def fieldJobId : String := "jobId"

/-- `const MAX_JOB_ID_LEN = 128`. -/
def MAX_JOB_ID_LEN : Nat := 128

/-- `const DB_TIMEOUT_MS = 10_000`. -/
def DB_TIMEOUT_MS : Nat := 10000

/-- `jobId.slice(0, n)`: the first `n` units of a string. -/
def strTake (s : String) (n : Nat) : String := String.mk (s.data.take n)

/-- The validated redeem request body of the idempotent endpoint. -/
structure RedeemBody where
  category : Category
  playerUserId : ℚ
  jobId : Option String
deriving DecidableEq

/-- `parseRedeemBody` of the idempotent redeem endpoint: requires a
non-null object, an allowed category string, a finite number
`playerUserId`, and length-caps an optional string `jobId`
(`if (jobId && jobId.length > MAX_JOB_ID_LEN) jobId = jobId.slice(0, MAX_JOB_ID_LEN)`). -/
def parseRedeemBody : JsonBody → Option RedeemBody
  | .nonObject _ => none
  | .object fields =>
    match lookupField fields fieldCategory with
    | some (.str catStr) =>
      match allowedCategory catStr with
      | none => none
      | some cat =>
        match lookupField fields fieldPlayerUserId with
        | some (.num n) =>
          match n with
          | .finite q =>
            let jobId : Option String :=
              match lookupField fields fieldJobId with
              | some (.str j) =>
                some (if j ≠ "" ∧ j.length > MAX_JOB_ID_LEN then strTake j MAX_JOB_ID_LEN else j)
              | _ => none
            some ⟨cat, q, jobId⟩
          | _ => none
        | _ => none
    | _ => none

/-- Method name constant. -/
def methodPOST : String := "POST"

/-- Method name constant. -/
def methodGET : String := "GET"

/-- The configured secrets (`requireEnv("REDEEM_SECRET_KEY")`,
`requireEnv("ADMIN_SECRET_KEY")`). -/
structure Env where
  redeemSecretKey : String
  adminSecretKey : String
deriving DecidableEq

/-- Outcome of `readJson`: a thrown JSON parse error, or a parsed value. -/
inductive BodyRead
  | failed
  | ok (b : JsonBody)
deriving DecidableEq

/-- An incoming request: method, the `x-api-key` header as returned by
`getHeader` (`null` when absent), the body, and the `category` / `code`
query parameters as plain strings (the first element is taken when the
framework yields an array). -/
structure Req where
  method : String
  apiKey : Option String
  body : BodyRead
  queryCategory : Option String
  queryCode : Option String
deriving DecidableEq

/-- The idempotent redeem endpoint handler: method gate, `x-api-key`
check against `REDEEM_SECRET_KEY`, JSON read, body validation, then the
atomic `REDEEM_SQL` statement and the truthiness-based classification of
its result row. -/
def redeemHandler (env : Env) (now : Nat) (req : Req) (s : Store) : Resp × Store :=
  if req.method ≠ methodPOST then (.methodNotAllowed, s)
  else if req.apiKey ≠ some env.redeemSecretKey then (.unauthorized, s)
  else
    match req.body with
    | .failed => (.invalidJson, s)
    | .ok b =>
      match parseRedeemBody b with
      | none => (.invalidBody, s)
      | some body =>
        let r := redeemCore now s body.playerUserId body.category body.jobId
        (classifyRow r.1, r.2)

/-- The peek endpoint handler: method gate, `x-api-key` check against
`ADMIN_SECRET_KEY`, category validation, then `PEEK_SQL` and the
truthiness test `if (!row?.id || !row.code || !row.category)` on the
selected row. -/
def peekHandler (env : Env) (req : Req) (s : Store) : Resp × Store :=
  if req.method ≠ methodGET then (.methodNotAllowed, s)
  else if req.apiKey ≠ some env.adminSecretKey then (.unauthorized, s)
  else
    match req.queryCategory.bind allowedCategory with
    | none => (.invalidCategory, s)
    | some cat =>
      match pickCode s cat with
      | none => (.outOfStock, s)
      | some c =>
        if c.id = 0 ∨ c.value = "" ∨ categoryText c.category = "" then
          (.outOfStock, s)
        else (.peekOk c.id c.value (categoryText c.category), s)

/-- Codes of a category not yet consumed (`used_at IS NULL`). -/
def countRemaining (s : Store) (cat : Category) : Nat :=
  (s.codes.filter (fun c => c.category == cat && c.usedAt == none)).length

/-- Codes of a category already consumed. -/
def countUsed (s : Store) (cat : Category) : Nat :=
  (s.codes.filter (fun c => c.category == cat && c.usedAt != none)).length

/-- Modelled from the spec: the `db_meta_data` relation read by the stats
endpoint has no DDL under src/ (only its reader is present).  Per the
spec — "`stats() → sequence of (category, remainingCount, usedCount)`:
aggregate counts per category" — it is modelled as the per-category counts
of unconsumed and consumed codes, ordered by category name
(`ORDER BY category`; `gopay_cashback` sorts before `gopay_coins`). -/
def dbMetaData (s : Store) : List (String × Nat × Nat) :=
  [ (catCashbackStr, countRemaining s Category.gopay_cashback,
     countUsed s Category.gopay_cashback),
    (catCoinsStr, countRemaining s Category.gopay_coins,
     countUsed s Category.gopay_coins) ]

/-- The stats endpoint handler: method gate, `x-api-key` check against
`ADMIN_SECRET_KEY`, then the read of `db_meta_data`. -/
def statsHandler (env : Env) (req : Req) (s : Store) : Resp × Store :=
  if req.method ≠ methodGET then (.methodNotAllowed, s)
  else if req.apiKey ≠ some env.adminSecretKey then (.unauthorized, s)
  else (.statsOk (dbMetaData s), s)

/-- The status endpoint handler: method gate, `x-api-key` check against
`ADMIN_SECRET_KEY`, optional category filter (`if (category && !ALLOWED...)`
— an empty string is falsy, hence treated as absent), required `code`
parameter, the code lookup, and for consumed codes the latest
(`ORDER BY id DESC LIMIT 1`, ids follow insertion order) ledger row. -/
def statusHandler (env : Env) (req : Req) (s : Store) : Resp × Store :=
  if req.method ≠ methodGET then (.methodNotAllowed, s)
  else if req.apiKey ≠ some env.adminSecretKey then (.unauthorized, s)
  else
    let categoryStr := req.queryCategory.getD ""
    if categoryStr ≠ "" ∧ allowedCategory categoryStr = none then (.invalidCategory, s)
    else
      let codeStr := req.queryCode.getD ""
      if codeStr = "" then (.invalidCode, s)
      else
        match s.codes.find? (fun c =>
            c.value == codeStr &&
              (categoryStr == "" || categoryText c.category == categoryStr)) with
        | none => (.notFound, s)
        | some c =>
          if c.id = 0 then (.notFound, s)
          else if c.usedAt = none then (.statusFound c false none, s)
          else
            (.statusFound c true
              ((s.usedCodes.filter (fun u => u.codeId == c.id)).getLast?), s)

/-- An error object as inspected by the catch blocks
(`{ name?: string; message?: string }`). -/
structure JSError where
  name : Option String
  message : Option String
deriving DecidableEq

/-- Character-list test: does `hay` start with `needle`? -/
def startsWithChars : List Char → List Char → Bool
  | [], _ => true
  | _ :: _, [] => false
  | a :: as, b :: bs => a == b && startsWithChars as bs

/-- Character-list substring test (the semantics of
`String.prototype.includes`). -/
def containsChars (needle : List Char) : List Char → Bool
  | [] => startsWithChars needle []
  | c :: t => startsWithChars needle (c :: t) || containsChars needle t

/-- `haystack.includes(needle)`. -/
def containsSub (hay needle : String) : Bool :=
  containsChars needle.data hay.data

/-- `s.toLowerCase()` (ASCII, as exercised by the inspected messages). -/
def lowerStr (s : String) : String := String.mk (s.data.map Char.toLower)

/-- String constant inspected by `isTimeoutError`. -/
def abortErrorName : String := "AbortError"

/-- Needle constant. -/
def needleTimedOut : String := "timed out"

/-- Needle constant. -/
def needleFetchFailed : String := "fetch failed"

/-- Needle constant. -/
def needleEcconnreset : String := "ecconnreset"

/-- Needle constant. -/
def needleEconnreset : String := "econnreset"

/-- Needle constant. -/
def needleEtimedout : String := "etimedout"

/-- Needle constant. -/
def needleSocket : String := "socket"

/-- Needle constant. -/
def needleNetwork : String := "network"

/-- `isTimeoutError`: an `AbortError`, or a message containing
"timed out" (lowercased). -/
def isTimeoutError (e : JSError) : Bool :=
  e.name == some abortErrorName ||
    containsSub (lowerStr (e.message.getD "")) needleTimedOut

/-- `isConnectionError`: the lowercased message contains one of the
connectivity markers. -/
def isConnectionError (e : JSError) : Bool :=
  let msg := lowerStr (e.message.getD "")
  containsSub msg needleFetchFailed || containsSub msg needleEcconnreset ||
    containsSub msg needleEconnreset || containsSub msg needleEtimedout ||
    containsSub msg needleSocket || containsSub msg needleNetwork

/-- The redeem/peek/status catch-block classification: timeout first
(504 `DB_TIMEOUT`), then connectivity (503 `DB_UNAVAILABLE`), otherwise
500 `INTERNAL_ERROR`. -/
def classifyFailure (e : JSError) : Resp :=
  if isTimeoutError e then .dbTimeout
  else if isConnectionError e then .dbUnavailable
  else .internalError

/-! ### Helper lemmas -/

theorem minIdCode_eq_none {l : List Code} : minIdCode l = none ↔ l = [] := by
  cases l with
  | nil => simp [minIdCode]
  | cons c cs =>
    simp only [minIdCode]
    cases minIdCode cs <;> simp

theorem minIdCode_spec : ∀ {l : List Code} {c : Code}, minIdCode l = some c →
    c ∈ l ∧ ∀ d ∈ l, c.id ≤ d.id := by
  intro l
  induction l with
  | nil => intro c h; simp [minIdCode] at h
  | cons x xs ih =>
    intro c h
    simp only [minIdCode] at h
    cases hx : minIdCode xs with
    | none =>
      rw [hx] at h
      have hnil : xs = [] := minIdCode_eq_none.mp hx
      injection h with h'
      subst h'
      subst hnil
      exact ⟨List.mem_singleton.mpr rfl, by intro d hd; simp at hd; simp [hd]⟩
    | some d =>
      rw [hx] at h
      obtain ⟨hmem, hmin⟩ := ih hx
      injection h with h'
      by_cases hlt : d.id < x.id
      · rw [if_pos hlt] at h'
        subst h'
        refine ⟨List.mem_cons_of_mem _ hmem, ?_⟩
        intro e he
        rcases List.mem_cons.mp he with rfl | he'
        · exact Nat.le_of_lt hlt
        · exact hmin e he'
      · rw [if_neg hlt] at h'
        subst h'
        refine ⟨List.mem_cons_self _ _, ?_⟩
        intro e he
        rcases List.mem_cons.mp he with rfl | he'
        · exact Nat.le_refl _
        · exact Nat.le_trans (Nat.le_of_not_lt hlt) (hmin e he')

theorem pickCode_mem_min {s : Store} {cat : Category} {c : Code}
    (h : pickCode s cat = some c) :
    c ∈ availables s cat ∧ ∀ d ∈ availables s cat, c.id ≤ d.id :=
  minIdCode_spec h

theorem pickCode_eq_none_iff {s : Store} {cat : Category} :
    pickCode s cat = none ↔ availables s cat = [] := by
  unfold pickCode
  exact minIdCode_eq_none

theorem mem_availables {s : Store} {cat : Category} {c : Code}
    (h : c ∈ availables s cat) :
    c ∈ s.codes ∧ c.category = cat ∧ c.usedAt = none := by
  unfold availables at h
  have := List.mem_filter.mp h
  refine ⟨this.1, ?_⟩
  have hp := this.2
  unfold isAvailable at hp
  simp only [Bool.and_eq_true, beq_iff_eq] at hp
  exact hp

theorem findExisting_isSome_of_match {s : Store} {p : ℚ} {cat : Category}
    {u : UsedRecord} {c : Code}
    (hu : u ∈ s.usedCodes) (hp : u.playerUserId = some p)
    (hc : c ∈ s.codes) (hid : c.id = u.codeId) (hcat : c.category = cat) :
    (findExisting s p cat).isSome := by
  unfold findExisting
  rw [Option.isSome_iff_ne_none]
  intro hnone
  rw [List.head?_eq_none_iff] at hnone
  rw [List.filterMap_eq_nil_iff] at hnone
  have hthis := hnone u hu
  rw [hp] at hthis
  simp only [beq_self_eq_true, if_pos] at hthis
  rw [Option.map_eq_none'] at hthis
  rw [List.find?_eq_none] at hthis
  have hcc := hthis c hc
  simp only [Bool.and_eq_true, beq_iff_eq] at hcc
  exact hcc ⟨hid, hcat⟩

theorem findExisting_some_spec {s : Store} {p : ℚ} {cat : Category} {v : String}
    (h : findExisting s p cat = some v) :
    ∃ u ∈ s.usedCodes, u.playerUserId = some p ∧
      ∃ c ∈ s.codes, c.id = u.codeId ∧ c.category = cat ∧ c.value = v := by
  unfold findExisting at h
  have hv : v ∈ s.usedCodes.filterMap (fun u =>
      if u.playerUserId == some p then
        (s.codes.find? (fun c => c.id == u.codeId && c.category == cat)).map
          (fun c => c.value)
      else none) := by
    cases hl : s.usedCodes.filterMap (fun u =>
        if u.playerUserId == some p then
          (s.codes.find? (fun c => c.id == u.codeId && c.category == cat)).map
            (fun c => c.value)
        else none) with
    | nil => rw [hl] at h; simp at h
    | cons w ws =>
      rw [hl] at h
      simp only [List.head?_cons, Option.some.injEq] at h
      subst h
      exact List.mem_cons_self _ _
  rw [List.mem_filterMap] at hv
  obtain ⟨u, hu, hf⟩ := hv
  by_cases hup : u.playerUserId == some p
  · rw [if_pos hup] at hf
    rw [Option.map_eq_some'] at hf
    obtain ⟨c, hfind, hval⟩ := hf
    have hcmem := List.mem_of_find?_eq_some hfind
    have hpred := List.find?_some hfind
    simp only [Bool.and_eq_true, beq_iff_eq] at hpred
    exact ⟨u, hu, beq_iff_eq.mp hup, c, hcmem, hpred.1, hpred.2, hval⟩
  · rw [if_neg hup] at hf
    exact absurd hf (by simp)

theorem find?_eq_of_unique : ∀ (l : List Code) (pred : Code → Bool) (c : Code),
    c ∈ l → pred c = true → (∀ x ∈ l, pred x = true → x = c) →
    l.find? pred = some c := by
  intro l pred c
  induction l with
  | nil => intro hc _ _; simp at hc
  | cons a as ih =>
    intro hc hpc huniq
    by_cases ha : pred a = true
    · rw [List.find?_cons_of_pos _ ha]
      rw [huniq a (List.mem_cons_self _ _) ha]
    · rw [List.find?_cons_of_neg _ (by simpa using ha)]
      rcases List.mem_cons.mp hc with rfl | hc'
      · exact absurd hpc ha
      · exact ih hc' hpc (fun x hx hpx => huniq x (List.mem_cons_of_mem _ hx) hpx)

theorem find?_markUsed (now pickedId k : Nat) (cat : Category) (l : List Code) :
    (markUsed now pickedId l).find? (fun c => c.id == k && c.category == cat)
      = (l.find? (fun c => c.id == k && c.category == cat)).map
          (fun c => if c.id == pickedId then { c with usedAt := some now } else c) := by
  unfold markUsed
  rw [List.find?_map]
  have hfun : ((fun c : Code => c.id == k && c.category == cat) ∘ fun c =>
      if c.id == pickedId then { c with usedAt := some now } else c)
      = fun c => c.id == k && c.category == cat := by
    funext c
    by_cases h : (c.id == pickedId) = true
    · simp only [Function.comp_apply, if_pos h]
    · simp only [Function.comp_apply, if_neg h]
  rw [hfun]

/-- After a successful allocation for `(p, cat)`, the `existing` lookup of a
subsequent call with the same key finds the inserted ledger row and returns
the allocated code's value. -/
theorem findExisting_after_alloc {now : Nat} {s : Store} {p : ℚ} {cat : Category}
    {j : Option String} {c : Code}
    (hwf : idUnique s)
    (hnone : findExisting s p cat = none)
    (hpick : pickCode s cat = some c) :
    findExisting
      { codes := markUsed now c.id s.codes,
        usedCodes := s.usedCodes ++ [⟨c.id, some p, some cat, j⟩] } p cat
      = some c.value := by
  obtain ⟨hav, _⟩ := pickCode_mem_min hpick
  obtain ⟨hmem, hcat, _⟩ := mem_availables hav
  have hold : ∀ u ∈ s.usedCodes,
      (if u.playerUserId == some p then
        (s.codes.find? (fun x => x.id == u.codeId && x.category == cat)).map
          (fun x => x.value)
      else none) = none := by
    have h0 : findExisting s p cat = none := hnone
    unfold findExisting at h0
    rw [List.head?_eq_none_iff, List.filterMap_eq_nil_iff] at h0
    exact h0
  unfold findExisting
  simp only [List.filterMap_append]
  have hold' : (s.usedCodes.filterMap (fun u =>
      if u.playerUserId == some p then
        ((markUsed now c.id s.codes).find?
          (fun x => x.id == u.codeId && x.category == cat)).map (fun x => x.value)
      else none)) = [] := by
    rw [List.filterMap_eq_nil_iff]
    intro u hu
    have h1 := hold u hu
    by_cases hup : u.playerUserId == some p
    · rw [if_pos hup] at h1 ⊢
      rw [find?_markUsed]
      rw [Option.map_eq_none'] at h1
      rw [h1]
      rfl
    · rw [if_neg hup]
  rw [hold']
  have hfind : s.codes.find? (fun x => x.id == c.id && x.category == cat) = some c := by
    apply find?_eq_of_unique s.codes _ c hmem
    · simp [hcat]
    · intro x hx hpx
      simp only [Bool.and_eq_true, beq_iff_eq] at hpx
      exact hwf x hx c hmem hpx.1
  simp only [List.filterMap_cons, List.filterMap_nil, beq_self_eq_true, if_pos]
  rw [find?_markUsed, hfind]
  simp

/-- A redeem call that allocated leaves a state in which the same
`(p, cat)` key resolves to `AlreadyRedeemed` with the same value. -/
theorem redeem_replay {now now' : Nat} {s s' : Store} {p : ℚ} {cat : Category}
    {j j' : Option String} {v : String}
    (hwf : idUnique s)
    (h : redeemCore now s p cat j = ((none, some v), s')) :
    rowResult (redeemCore now' s' p cat j').1 = RedeemResult.alreadyRedeemed v := by
  unfold redeemCore at h
  cases hfe : findExisting s p cat with
  | some w => rw [hfe] at h; simp at h
  | none =>
    rw [hfe] at h
    cases hpick : pickCode s cat with
    | none => rw [hpick] at h; simp at h
    | some c =>
      rw [hpick] at h
      simp only [Prod.mk.injEq, Option.some.injEq] at h
      obtain ⟨⟨_, hv⟩, hs'⟩ := h
      subst hv
      subst hs'
      unfold redeemCore
      rw [findExisting_after_alloc hwf hfe hpick]
      rfl

/-! ### Claim theorems -/

/-- C1: for every store state in which a ledger row already exists for
`(playerId, category)` (a `used_code` row of that player whose code has the
requested category), the redeem statement resolves to `AlreadyRedeemed`
carrying that row's code value; consequently, after a first successful
allocation, every repeated redeem call with the same key resolves to
`AlreadyRedeemed` with exactly the code value the first success returned. -/
theorem c1_already_redeemed_idempotent :
    (∀ (now : Nat) (s : Store) (p : ℚ) (cat : Category) (j : Option String),
      (∃ u ∈ s.usedCodes, u.playerUserId = some p ∧
        ∃ c ∈ s.codes, c.id = u.codeId ∧ c.category = cat) →
      ∃ u ∈ s.usedCodes, u.playerUserId = some p ∧
        ∃ c ∈ s.codes, c.id = u.codeId ∧ c.category = cat ∧
          rowResult (redeemCore now s p cat j).1 = RedeemResult.alreadyRedeemed c.value) ∧
    (∀ (now now' : Nat) (s s' : Store) (p : ℚ) (cat : Category)
        (j j' : Option String) (v : String),
      idUnique s →
      redeemCore now s p cat j = ((none, some v), s') →
      rowResult (redeemCore now' s' p cat j').1 = RedeemResult.alreadyRedeemed v) := by
  constructor
  · intro now s p cat j hex
    obtain ⟨u, hu, hp, c, hc, hid, hcat⟩ := hex
    have hsome := findExisting_isSome_of_match hu hp hc hid hcat
    rw [Option.isSome_iff_exists] at hsome
    obtain ⟨v, hv⟩ := hsome
    obtain ⟨u', hu', hp', c', hc', hid', hcat', hval'⟩ := findExisting_some_spec hv
    refine ⟨u', hu', hp', c', hc', hid', hcat', ?_⟩
    unfold redeemCore
    rw [hv, hval']
    rfl
  · intro now now' s s' p cat j j' v hwf h
    exact redeem_replay hwf h

/-- Witness store for C1's first conjunct: player 7 already holds code
`A1` of the coins category. -/
def c1Store : Store :=
  ⟨[⟨1, Category.gopay_coins, "A1", some 3⟩],
   [⟨1, some 7, some Category.gopay_coins, none⟩]⟩

/-- Witness start store for C1's second conjunct: one available coins code. -/
def c1Seed : Store := ⟨[⟨1, Category.gopay_coins, "A1", none⟩], []⟩

/-- Witness state after the first successful allocation from `c1Seed`. -/
def c1After : Store :=
  ⟨[⟨1, Category.gopay_coins, "A1", some 5⟩],
   [⟨1, some 7, some Category.gopay_coins, none⟩]⟩

theorem c1_already_redeemed_idempotent_witness :
    (∃ u ∈ c1Store.usedCodes, u.playerUserId = some 7 ∧
      ∃ c ∈ c1Store.codes, c.id = u.codeId ∧ c.category = Category.gopay_coins ∧
        rowResult (redeemCore 9 c1Store 7 Category.gopay_coins none).1 =
          RedeemResult.alreadyRedeemed c.value) ∧
    rowResult (redeemCore 6 c1After 7 Category.gopay_coins none).1 =
      RedeemResult.alreadyRedeemed "A1" :=
  ⟨c1_already_redeemed_idempotent.1 9 c1Store 7 Category.gopay_coins none (by decide),
   c1_already_redeemed_idempotent.2 5 6 c1Seed c1After 7 Category.gopay_coins
     none none "A1" (by decide) (by decide)⟩

/-- C2: when a ledger row already exists for `(playerId, category)`, the
redeem statement leaves the store untouched — no code's `used_at` is set
and no ledger row is inserted, even when available codes remain. -/
theorem c2_already_redeemed_frame :
    ∀ (now : Nat) (s : Store) (p : ℚ) (cat : Category) (j : Option String),
      (∃ u ∈ s.usedCodes, u.playerUserId = some p ∧
        ∃ c ∈ s.codes, c.id = u.codeId ∧ c.category = cat) →
      (redeemCore now s p cat j).2 = s := by
  intro now s p cat j hex
  obtain ⟨u, hu, hp, c, hc, hid, hcat⟩ := hex
  have hsome := findExisting_isSome_of_match hu hp hc hid hcat
  rw [Option.isSome_iff_exists] at hsome
  obtain ⟨v, hv⟩ := hsome
  unfold redeemCore
  rw [hv]

/-- Witness store for C2: player 7 already redeemed coins code 1, and a
second coins code is still available (stock remains). -/
def c2Store : Store :=
  ⟨[⟨1, Category.gopay_coins, "A1", some 3⟩, ⟨2, Category.gopay_coins, "A2", none⟩],
   [⟨1, some 7, some Category.gopay_coins, none⟩]⟩

theorem c2_already_redeemed_frame_witness :
    (redeemCore 9 c2Store 7 Category.gopay_coins none).2 = c2Store :=
  c2_already_redeemed_frame 9 c2Store 7 Category.gopay_coins none (by decide)

/-- C3: the code selected for allocation is the available code with the
smallest id of the category — no available lower-id code is skipped — and,
with no prior ledger row for the caller's key (idempotent variant) or
unconditionally (legacy variant), that code's value is the allocated one. -/
theorem c3_fifo_allocation :
    (∀ (s : Store) (cat : Category) (c : Code), pickCode s cat = some c →
      c ∈ availables s cat ∧ ∀ d ∈ availables s cat, c.id ≤ d.id) ∧
    (∀ (now : Nat) (s : Store) (p : ℚ) (cat : Category) (j : Option String) (c : Code),
      findExisting s p cat = none → pickCode s cat = some c →
      rowResult (redeemCore now s p cat j).1 = RedeemResult.allocated c.value) ∧
    (∀ (now : Nat) (s : Store) (cat : Category) (p : Option ℚ) (j : Option String)
        (c : Code),
      pickCode s cat = some c → (redeemLegacy now s cat p j).1 = some c.value) := by
  refine ⟨?_, ?_, ?_⟩
  · intro s cat c h
    exact pickCode_mem_min h
  · intro now s p cat j c hfe hpick
    unfold redeemCore
    rw [hfe, hpick]
    rfl
  · intro now s cat p j c hpick
    unfold redeemLegacy
    rw [hpick]

/-- Witness store for C3: coins codes with ids 2, 1, 3 all available —
the selected code must be id 1. -/
def c3Store : Store :=
  ⟨[⟨2, Category.gopay_coins, "B2", none⟩, ⟨1, Category.gopay_coins, "B1", none⟩,
    ⟨3, Category.gopay_coins, "B3", none⟩], []⟩

/-- The code row with id 1 of `c3Store`. -/
def c3Min : Code := ⟨1, Category.gopay_coins, "B1", none⟩

theorem c3_fifo_allocation_witness :
    (c3Min ∈ availables c3Store Category.gopay_coins ∧
      ∀ d ∈ availables c3Store Category.gopay_coins, c3Min.id ≤ d.id) ∧
    rowResult (redeemCore 4 c3Store 7 Category.gopay_coins none).1 =
      RedeemResult.allocated "B1" ∧
    (redeemLegacy 4 c3Store Category.gopay_coins (some 7) none).1 = some "B1" :=
  ⟨c3_fifo_allocation.1 c3Store Category.gopay_coins c3Min (by decide),
   c3_fifo_allocation.2.1 4 c3Store 7 Category.gopay_coins none c3Min
     (by decide) (by decide),
   c3_fifo_allocation.2.2 4 c3Store Category.gopay_coins (some 7) none c3Min
     (by decide)⟩

/-- Counterexample store for C4: player 7's only ledger row references a
code whose opaque value is the empty string. -/
def c4Store : Store :=
  ⟨[⟨1, Category.gopay_coins, "", some 3⟩],
   [⟨1, some 7, some Category.gopay_coins, none⟩]⟩

/-- C4 counterexample: the claim's iff fails on the code.  In `c4Store`
player 7 has a prior redemption for the coins category, yet the handler
classifies the result row as 404 `OUT_OF_STOCK`: `already_code` is the
empty string, which is falsy, so `if (alreadyCode)` falls through and
`if (!newCode)` fires. -/
theorem c4_out_of_stock_iff_counterexample :
    classifyRow (redeemCore 10 c4Store 7 Category.gopay_coins none).1 = Resp.outOfStock ∧
    (∃ u ∈ c4Store.usedCodes, u.playerUserId = some 7 ∧
      ∃ c ∈ c4Store.codes, c.id = u.codeId ∧ c.category = Category.gopay_coins) := by
  decide

/-- C4 amended: over stores whose code values are all nonempty strings
(the truthiness tests `if (alreadyCode)` / `if (!newCode)` conflate the
empty string with null), a redeem call resolves to 404 `OUT_OF_STOCK` iff
no available code exists in the category and the player has no prior
ledger row; every other result row classifies as `ALREADY_REDEEMED` or
`200 {code}`. -/
theorem c4_out_of_stock_iff :
    ∀ (now : Nat) (s : Store) (p : ℚ) (cat : Category) (j : Option String),
      (∀ c ∈ s.codes, c.value ≠ "") →
      ((classifyRow (redeemCore now s p cat j).1 = Resp.outOfStock ↔
          availables s cat = [] ∧ findExisting s p cat = none) ∧
        (classifyRow (redeemCore now s p cat j).1 = Resp.alreadyRedeemed ∨
          classifyRow (redeemCore now s p cat j).1 = Resp.outOfStock ∨
          ∃ v, classifyRow (redeemCore now s p cat j).1 = Resp.allocated v)) := by
  intro now s p cat j hval
  cases hfe : findExisting s p cat with
  | some v =>
    have hv : v ≠ "" := by
      obtain ⟨u, hu, hp, c, hc, hid, hcat, hcv⟩ := findExisting_some_spec hfe
      rw [← hcv]
      exact hval c hc
    have hcls : classifyRow (redeemCore now s p cat j).1 = Resp.alreadyRedeemed := by
      unfold redeemCore
      rw [hfe]
      simp only [classifyRow, truthy]
      rw [if_pos (by simpa using hv)]
    constructor
    · rw [hcls]
      constructor
      · intro h; exact absurd h (by simp)
      · rintro ⟨_, hnone⟩; exact absurd hnone (by simp)
    · exact Or.inl hcls
  | none =>
    cases hpick : pickCode s cat with
    | none =>
      have hcls : classifyRow (redeemCore now s p cat j).1 = Resp.outOfStock := by
        unfold redeemCore
        rw [hfe, hpick]
        rfl
      constructor
      · rw [hcls]
        constructor
        · intro _
          exact ⟨pickCode_eq_none_iff.mp hpick, rfl⟩
        · intro _
          rfl
      · exact Or.inr (Or.inl hcls)
    | some c =>
      have hv : c.value ≠ "" := by
        obtain ⟨hav, _⟩ := pickCode_mem_min hpick
        exact hval c (mem_availables hav).1
      have hcls : classifyRow (redeemCore now s p cat j).1 = Resp.allocated c.value := by
        unfold redeemCore
        rw [hfe, hpick]
        simp only [classifyRow, truthy]
        rw [if_neg (by simp), if_pos (by simpa using hv)]
      constructor
      · rw [hcls]
        constructor
        · intro h; exact absurd h (by simp)
        · rintro ⟨hav, _⟩
          obtain ⟨hmem, _⟩ := pickCode_mem_min hpick
          rw [hav] at hmem
          exact absurd hmem (by simp)
      · exact Or.inr (Or.inr ⟨c.value, hcls⟩)

/-- Witness store for C4's amended theorem: one available nonempty-valued
coins code and an untouched ledger. -/
def c4WStore : Store := ⟨[⟨1, Category.gopay_coins, "C1", none⟩], []⟩

theorem c4_out_of_stock_iff_witness :
    (classifyRow (redeemCore 2 c4WStore 9 Category.gopay_coins none).1 = Resp.outOfStock ↔
      availables c4WStore Category.gopay_coins = [] ∧
        findExisting c4WStore 9 Category.gopay_coins = none) ∧
    (classifyRow (redeemCore 2 c4WStore 9 Category.gopay_coins none).1 = Resp.alreadyRedeemed ∨
      classifyRow (redeemCore 2 c4WStore 9 Category.gopay_coins none).1 = Resp.outOfStock ∨
      ∃ v, classifyRow (redeemCore 2 c4WStore 9 Category.gopay_coins none).1 =
        Resp.allocated v) :=
  c4_out_of_stock_iff 2 c4WStore 9 Category.gopay_coins none (by decide)

/-- C5: the redeem invocation's deadline constant is 10 seconds
(`DB_TIMEOUT_MS = 10_000`), and the catch-block classification maps the
three failure causes to three pairwise distinct outcomes: a timeout error
to 504 `DB_TIMEOUT`, a connectivity error to 503 `DB_UNAVAILABLE`, and
any other failure to 500 `INTERNAL_ERROR`. -/
theorem c5_failure_classification :
    DB_TIMEOUT_MS = 10000 ∧
    (∀ e : JSError, isTimeoutError e = true → classifyFailure e = Resp.dbTimeout) ∧
    (∀ e : JSError, isTimeoutError e = false → isConnectionError e = true →
      classifyFailure e = Resp.dbUnavailable) ∧
    (∀ e : JSError, isTimeoutError e = false → isConnectionError e = false →
      classifyFailure e = Resp.internalError) ∧
    Resp.dbTimeout.status = 504 ∧ Resp.dbUnavailable.status = 503 ∧
    Resp.internalError.status = 500 ∧
    Resp.dbTimeout ≠ Resp.dbUnavailable ∧ Resp.dbTimeout ≠ Resp.internalError ∧
    Resp.dbUnavailable ≠ Resp.internalError := by
  refine ⟨rfl, ?_, ?_, ?_, rfl, rfl, rfl, by decide, by decide, by decide⟩
  · intro e ht
    unfold classifyFailure
    rw [if_pos ht]
  · intro e ht hc
    unfold classifyFailure
    rw [if_neg (by simp [ht]), if_pos hc]
  · intro e ht hc
    unfold classifyFailure
    rw [if_neg (by simp [ht]), if_neg (by simp [hc])]

/-- An unclassified error message. -/
def msgBoom : String := "boom"

theorem c5_failure_classification_witness :
    classifyFailure ⟨some abortErrorName, none⟩ = Resp.dbTimeout ∧
    classifyFailure ⟨none, some needleFetchFailed⟩ = Resp.dbUnavailable ∧
    classifyFailure ⟨none, some msgBoom⟩ = Resp.internalError :=
  ⟨c5_failure_classification.2.1 ⟨some abortErrorName, none⟩ (by decide),
   c5_failure_classification.2.2.1 ⟨none, some needleFetchFailed⟩ (by decide) (by decide),
   c5_failure_classification.2.2.2.1 ⟨none, some msgBoom⟩ (by decide) (by decide)⟩

/-- C6: `MAX_JOB_ID_LEN` is 128; a string `jobId` longer than that parses
to its first 128 units and a shorter one parses unchanged; the redeem
statement persists the parsed `jobId` verbatim in the inserted ledger
row. -/
theorem c6_jobid_truncation :
    MAX_JOB_ID_LEN = 128 ∧
    (∀ (q : ℚ) (j : String),
      parseRedeemBody (JsonBody.object
        [(fieldCategory, JSAtom.str catCoinsStr),
         (fieldPlayerUserId, JSAtom.num (JSNum.finite q)),
         (fieldJobId, JSAtom.str j)]) =
        some ⟨Category.gopay_coins, q,
          some (if MAX_JOB_ID_LEN < j.length then strTake j MAX_JOB_ID_LEN else j)⟩) ∧
    (∀ (now : Nat) (s : Store) (p : ℚ) (cat : Category) (jv : Option String) (c : Code),
      findExisting s p cat = none → pickCode s cat = some c →
      (redeemCore now s p cat jv).2.usedCodes =
        s.usedCodes ++ [⟨c.id, some p, some cat, jv⟩]) := by
  refine ⟨rfl, ?_, ?_⟩
  · intro q j
    have hred : parseRedeemBody (JsonBody.object
        [(fieldCategory, JSAtom.str catCoinsStr),
         (fieldPlayerUserId, JSAtom.num (JSNum.finite q)),
         (fieldJobId, JSAtom.str j)]) =
        some ⟨Category.gopay_coins, q,
          some (if j ≠ "" ∧ j.length > MAX_JOB_ID_LEN then strTake j MAX_JOB_ID_LEN else j)⟩ :=
      rfl
    rw [hred]
    have hiff : (j ≠ "" ∧ j.length > MAX_JOB_ID_LEN) ↔ (MAX_JOB_ID_LEN < j.length) := by
      constructor
      · rintro ⟨_, h⟩; exact h
      · intro h
        refine ⟨?_, h⟩
        intro he
        rw [he] at h
        exact absurd h (by decide)
    rw [if_congr hiff rfl rfl]
  · intro now s p cat jv c hfe hpick
    unfold redeemCore
    rw [hfe, hpick]

theorem c6_jobid_truncation_witness :
    parseRedeemBody (JsonBody.object
      [(fieldCategory, JSAtom.str catCoinsStr),
       (fieldPlayerUserId, JSAtom.num (JSNum.finite 7)),
       (fieldJobId, JSAtom.str msgBoom)]) =
      some ⟨Category.gopay_coins, 7,
        some (if MAX_JOB_ID_LEN < msgBoom.length then strTake msgBoom MAX_JOB_ID_LEN
              else msgBoom)⟩ ∧
    (redeemCore 4 c1Seed 7 Category.gopay_coins (some msgBoom)).2.usedCodes =
      c1Seed.usedCodes ++ [⟨1, some 7, some Category.gopay_coins, some msgBoom⟩] :=
  ⟨c6_jobid_truncation.2.1 7 msgBoom,
   c6_jobid_truncation.2.2 4 c1Seed 7 Category.gopay_coins (some msgBoom)
     ⟨1, Category.gopay_coins, "A1", none⟩ (by decide) (by decide)⟩

/-- Counterexample body for C7: a negative `playerUserId`. -/
def c7Body : JsonBody :=
  JsonBody.object
    [(fieldCategory, JSAtom.str catCoinsStr),
     (fieldPlayerUserId, JSAtom.num (JSNum.finite (-1)))]

/-- C7 counterexample: the parser accepts a negative `playerUserId` — the
only checks are `typeof === "number"` and `Number.isFinite`, so the body
`{category: "gopay_coins", playerUserId: -1}` parses successfully instead
of being rejected with 400 `INVALID_BODY`. -/
theorem c7_nonneg_int_counterexample :
    parseRedeemBody c7Body = some ⟨Category.gopay_coins, -1, none⟩ ∧ (-1 : ℚ) < 0 := by
  decide

/-- C7 amended: the parser accepts `playerUserId` exactly when it is a
finite JS number — missing fields, non-numbers, NaN and the infinities are
rejected (and a rejected body makes the handler answer 400 `INVALID_BODY`
with the store untouched), but negative and fractional finite numbers are
accepted. -/
theorem c7_player_id_validation :
    (∀ a : JSAtom,
      (parseRedeemBody (JsonBody.object
        [(fieldCategory, JSAtom.str catCoinsStr), (fieldPlayerUserId, a)])).isSome =
        (match a with | JSAtom.num n => isFiniteNum n | _ => false)) ∧
    (∀ (env : Env) (now : Nat) (req : Req) (s : Store) (b : JsonBody),
      req.method = methodPOST → req.apiKey = some env.redeemSecretKey →
      req.body = BodyRead.ok b → parseRedeemBody b = none →
      redeemHandler env now req s = (Resp.invalidBody, s)) := by
  constructor
  · intro a
    cases a with
    | num n => cases n <;> rfl
    | null => rfl
    | bool b => rfl
    | str s => rfl
    | object => rfl
  · intro env now req s b hm hk hb hpb
    unfold redeemHandler
    rw [if_neg (by simp [hm]), if_neg (by simp [hk]), hb]
    simp only [hpb]

/-- Redeem secret used by witness requests. -/
def wRedeemKey : String := "r-key"

/-- Admin secret used by witness requests. -/
def wAdminKey : String := "a-key"

/-- Witness environment. -/
def wEnv : Env := ⟨wRedeemKey, wAdminKey⟩

/-- A body whose `playerUserId` is NaN. -/
def c7NanBody : JsonBody :=
  JsonBody.object
    [(fieldCategory, JSAtom.str catCoinsStr), (fieldPlayerUserId, JSAtom.num JSNum.nan)]

/-- A correctly authenticated POST carrying the NaN body. -/
def c7NanReq : Req := ⟨methodPOST, some wRedeemKey, BodyRead.ok c7NanBody, none, none⟩

theorem c7_player_id_validation_witness :
    (parseRedeemBody (JsonBody.object
      [(fieldCategory, JSAtom.str catCoinsStr),
       (fieldPlayerUserId, JSAtom.num JSNum.nan)])).isSome = false ∧
    redeemHandler wEnv 3 c7NanReq c1Seed = (Resp.invalidBody, c1Seed) :=
  ⟨c7_player_id_validation.1 (JSAtom.num JSNum.nan),
   c7_player_id_validation.2 wEnv 3 c7NanReq c1Seed c7NanBody rfl rfl rfl (by decide)⟩

theorem allowedCategory_categoryText (cat : Category) :
    allowedCategory (categoryText cat) = some cat := by
  cases cat <;> rfl

/-- Counterexample store for C8: the only coins code is available but its
opaque value is the empty string. -/
def c8Store : Store := ⟨[⟨1, Category.gopay_coins, "", none⟩], []⟩

/-- A correctly authenticated GET for the coins category. -/
def c8Req : Req := ⟨methodGET, some wAdminKey, BodyRead.failed, some catCoinsStr, none⟩

/-- C8 counterexample: with an available code whose value is the empty
string, peek answers 404 `OUT_OF_STOCK` although an available code exists —
`if (!row?.id || !row.code || !row.category)` treats the empty `code`
string as missing. -/
theorem c8_peek_counterexample :
    peekHandler wEnv c8Req c8Store = (Resp.outOfStock, c8Store) ∧
    availables c8Store Category.gopay_coins ≠ [] := by
  decide

/-- C8 amended: over stores whose codes all have nonzero ids and nonempty
values (the row truthiness test conflates id 0 and the empty string with
an absent row), an authenticated peek returns the store unchanged, answers
`OUT_OF_STOCK` iff no available code exists in the category, and otherwise
reports the id and value of the smallest-id available code — the code an
idempotent redeem without a prior ledger row would allocate. -/
theorem c8_peek_min_available :
    ∀ (env : Env) (req : Req) (s : Store) (cat : Category),
      req.method = methodGET → req.apiKey = some env.adminSecretKey →
      req.queryCategory = some (categoryText cat) →
      (∀ c ∈ s.codes, c.value ≠ "" ∧ c.id ≠ 0) →
      ((peekHandler env req s).2 = s ∧
        ((peekHandler env req s).1 = Resp.outOfStock ↔ availables s cat = []) ∧
        (∀ c : Code, pickCode s cat = some c →
          (peekHandler env req s).1 = Resp.peekOk c.id c.value (categoryText cat) ∧
          c ∈ availables s cat ∧ (∀ d ∈ availables s cat, c.id ≤ d.id) ∧
          (∀ (p : ℚ) (now : Nat) (j : Option String), findExisting s p cat = none →
            rowResult (redeemCore now s p cat j).1 = RedeemResult.allocated c.value))) := by
  intro env req s cat hm hk hq hcodes
  have hbind : req.queryCategory.bind allowedCategory = some cat := by
    rw [hq]
    exact allowedCategory_categoryText cat
  have hpeek : peekHandler env req s =
      (match pickCode s cat with
       | none => (Resp.outOfStock, s)
       | some c =>
         if c.id = 0 ∨ c.value = "" ∨ categoryText c.category = "" then
           (Resp.outOfStock, s)
         else (Resp.peekOk c.id c.value (categoryText c.category), s)) := by
    unfold peekHandler
    rw [if_neg (by simp [hm]), if_neg (by simp [hk]), hbind]
  cases hpick : pickCode s cat with
  | none =>
    rw [hpick] at hpeek
    have hpeek2 : peekHandler env req s = (Resp.outOfStock, s) := hpeek
    refine ⟨by rw [hpeek2], ?_, ?_⟩
    · rw [hpeek2]
      exact ⟨fun _ => pickCode_eq_none_iff.mp hpick, fun _ => rfl⟩
    · intro c hc
      exact absurd hc (by simp)
  | some c =>
    obtain ⟨hav, hmin⟩ := pickCode_mem_min hpick
    obtain ⟨hmem, hcat, _⟩ := mem_availables hav
    obtain ⟨hvne, hidne⟩ := hcodes c hmem
    have hctne : categoryText c.category ≠ "" := by
      cases hc : c.category <;> decide
    have hguard : ¬(c.id = 0 ∨ c.value = "" ∨ categoryText c.category = "") := by
      push_neg
      exact ⟨hidne, hvne, hctne⟩
    rw [hpick] at hpeek
    have hpeek2 : peekHandler env req s =
        (if c.id = 0 ∨ c.value = "" ∨ categoryText c.category = "" then
          (Resp.outOfStock, s)
        else (Resp.peekOk c.id c.value (categoryText c.category), s)) := hpeek
    rw [if_neg hguard] at hpeek2
    refine ⟨by rw [hpeek2], ?_, ?_⟩
    · rw [hpeek2]
      constructor
      · intro h; exact absurd h (by simp)
      · intro h
        rw [h] at hav
        exact absurd hav (by simp)
    · intro c' hc'
      have hcc : c = c' := by injection hc'
      subst hcc
      refine ⟨by rw [hpeek2, hcat], hav, hmin, ?_⟩
      intro p now j hfe
      unfold redeemCore
      rw [hfe, hpick]
      rfl

/-- Witness store for C8's amended theorem: coins codes with ids 2 and 1
available. -/
def c8WStore : Store :=
  ⟨[⟨2, Category.gopay_coins, "D2", none⟩, ⟨1, Category.gopay_coins, "D1", none⟩], []⟩

theorem c8_peek_min_available_witness :
    (peekHandler wEnv c8Req c8WStore).2 = c8WStore ∧
    ((peekHandler wEnv c8Req c8WStore).1 = Resp.outOfStock ↔
      availables c8WStore Category.gopay_coins = []) ∧
    (∀ c : Code, pickCode c8WStore Category.gopay_coins = some c →
      (peekHandler wEnv c8Req c8WStore).1 =
        Resp.peekOk c.id c.value (categoryText Category.gopay_coins) ∧
      c ∈ availables c8WStore Category.gopay_coins ∧
      (∀ d ∈ availables c8WStore Category.gopay_coins, c.id ≤ d.id) ∧
      (∀ (p : ℚ) (now : Nat) (j : Option String),
        findExisting c8WStore p Category.gopay_coins = none →
        rowResult (redeemCore now c8WStore p Category.gopay_coins j).1 =
          RedeemResult.allocated c.value)) :=
  c8_peek_min_available wEnv c8Req c8WStore Category.gopay_coins rfl rfl rfl (by decide)

/-- An authenticated stats GET. -/
def statsReq : Req := ⟨methodGET, some wAdminKey, BodyRead.failed, none, none⟩

/-- Seed store for the stats scenario: a two-code COINS pool. -/
def seedStore : Store :=
  ⟨[⟨1, Category.gopay_coins, "A1", none⟩, ⟨2, Category.gopay_coins, "A2", none⟩], []⟩

/-- The store after the first allocation (player 7) from `seedStore`. -/
def seedStore1 : Store := (redeemCore 1 seedStore 7 Category.gopay_coins none).2

/-- The store after the second allocation (player 8). -/
def seedStore2 : Store := (redeemCore 2 seedStore1 8 Category.gopay_coins none).2

/-- C9: an authenticated stats call reports, per category and in category
order, the count of remaining (unconsumed) and used (consumed) codes;
after two allocations exhaust the two-code COINS pool seeded in
`seedStore`, it reports `remaining = 0, used = 2` for the coins category
(and `0, 0` for the untouched cashback category). -/
theorem c9_stats_counts :
    (∀ s : Store, statsHandler wEnv statsReq s = (Resp.statsOk (dbMetaData s), s)) ∧
    (∀ s : Store, dbMetaData s =
      [(catCashbackStr, countRemaining s Category.gopay_cashback,
        countUsed s Category.gopay_cashback),
       (catCoinsStr, countRemaining s Category.gopay_coins,
        countUsed s Category.gopay_coins)]) ∧
    rowResult (redeemCore 1 seedStore 7 Category.gopay_coins none).1 =
      RedeemResult.allocated "A1" ∧
    rowResult (redeemCore 2 seedStore1 8 Category.gopay_coins none).1 =
      RedeemResult.allocated "A2" ∧
    dbMetaData seedStore2 = [(catCashbackStr, 0, 0), (catCoinsStr, 0, 2)] := by
  refine ⟨fun s => rfl, fun s => rfl, by decide, by decide, by decide⟩

/-- C10: on all four endpoints a correct-method request whose `x-api-key`
is absent or differs from the endpoint's configured secret is answered
401 `UNAUTHORIZED` — for every body (parsed, malformed, or absent) and
every store, the response and the returned store do not depend on either —
and the two secrets guard different endpoints: when the two configured
secrets differ, the admin secret is rejected by redeem and the redeem
secret is rejected by peek. -/
theorem c10_auth_precedence :
    ∀ (env : Env) (now : Nat) (req : Req) (s : Store),
      (req.method = methodPOST → req.apiKey ≠ some env.redeemSecretKey →
        redeemHandler env now req s = (Resp.unauthorized, s)) ∧
      (req.method = methodGET → req.apiKey ≠ some env.adminSecretKey →
        peekHandler env req s = (Resp.unauthorized, s) ∧
        statsHandler env req s = (Resp.unauthorized, s) ∧
        statusHandler env req s = (Resp.unauthorized, s)) ∧
      (req.method = methodPOST → env.adminSecretKey ≠ env.redeemSecretKey →
        req.apiKey = some env.adminSecretKey →
        redeemHandler env now req s = (Resp.unauthorized, s)) ∧
      (req.method = methodGET → env.redeemSecretKey ≠ env.adminSecretKey →
        req.apiKey = some env.redeemSecretKey →
        peekHandler env req s = (Resp.unauthorized, s)) := by
  intro env now req s
  refine ⟨?_, ?_, ?_, ?_⟩
  · intro hm hk
    unfold redeemHandler
    rw [if_neg (by simp [hm]), if_pos hk]
  · intro hm hk
    refine ⟨?_, ?_, ?_⟩
    · unfold peekHandler
      rw [if_neg (by simp [hm]), if_pos hk]
    · unfold statsHandler
      rw [if_neg (by simp [hm]), if_pos hk]
    · unfold statusHandler
      rw [if_neg (by simp [hm]), if_pos hk]
  · intro hm hne hk
    unfold redeemHandler
    rw [if_neg (by simp [hm]), if_pos (by rw [hk]; simp [hne])]
  · intro hm hne hk
    unfold peekHandler
    rw [if_neg (by simp [hm]), if_pos (by rw [hk]; simp [hne])]

/-- A POST with a wrong key and a malformed body. -/
def c10BadReq : Req := ⟨methodPOST, some msgBoom, BodyRead.failed, none, none⟩

/-- A GET carrying the redeem secret (wrong endpoint's key) and an invalid
category. -/
def c10CrossReq : Req := ⟨methodGET, some wRedeemKey, BodyRead.failed, some msgBoom, none⟩

theorem c10_auth_precedence_witness :
    redeemHandler wEnv 0 c10BadReq seedStore = (Resp.unauthorized, seedStore) ∧
    peekHandler wEnv c10CrossReq seedStore = (Resp.unauthorized, seedStore) ∧
    statsHandler wEnv c10CrossReq seedStore = (Resp.unauthorized, seedStore) ∧
    statusHandler wEnv c10CrossReq seedStore = (Resp.unauthorized, seedStore) ∧
    redeemHandler wEnv 0 ⟨methodPOST, some wAdminKey, BodyRead.failed, none, none⟩
      seedStore = (Resp.unauthorized, seedStore) :=
  ⟨(c10_auth_precedence wEnv 0 c10BadReq seedStore).1 rfl (by decide),
   ((c10_auth_precedence wEnv 0 c10CrossReq seedStore).2.1 rfl (by decide)).1,
   ((c10_auth_precedence wEnv 0 c10CrossReq seedStore).2.1 rfl (by decide)).2.1,
   ((c10_auth_precedence wEnv 0 c10CrossReq seedStore).2.1 rfl (by decide)).2.2,
   (c10_auth_precedence wEnv 0
     ⟨methodPOST, some wAdminKey, BodyRead.failed, none, none⟩ seedStore).2.2.1
     rfl (by decide) rfl⟩

end Redemption
